import Mathlib

/-!
Verification of the libhif/libdnf core against its natural-language
specification.  The C sources are embedded shallowly: bitmaps (`Map`)
become `Finset Nat`, solvable ids become `Nat`, external libsolv pool
capabilities (interned strings, dataiterators, provides index, evr
comparison) become explicit fields of a pool record, and each C function
is translated to a Lean definition of the same name.
-/

/-! ## libsolv job-queue constants (public libsolv API values) -/

def SOLVER_SOLVABLE : Nat := 0x01
def SOLVER_SOLVABLE_NAME : Nat := 0x02
def SOLVER_SOLVABLE_PROVIDES : Nat := 0x03
def SOLVER_SOLVABLE_REPO : Nat := 0x05
def SOLVER_SOLVABLE_ALL : Nat := 0x06
def SOLVER_SELECTMASK : Nat := 0xff
def SOLVER_INSTALL : Nat := 0x100
def SOLVER_ERASE : Nat := 0x200
def SOLVER_UPDATE : Nat := 0x300
def SOLVER_MULTIVERSION : Nat := 0x500
def SOLVER_DISTUPGRADE : Nat := 0x700
def SOLVER_VERIFY : Nat := 0x800
def SOLVER_ALLOWUNINSTALL : Nat := 0xb00
def SOLVER_WEAK : Nat := 0x010000
def SOLVER_CLEANDEPS : Nat := 0x040000
def SOLVER_FORCEBEST : Nat := 0x100000
def SOLVER_SETEV : Nat := 0x01000000
def SOLVER_SETEVR : Nat := 0x02000000
def SOLVER_SETARCH : Nat := 0x04000000
def SOLVER_SETREPO : Nat := 0x10000000

/-- libsolv knownid used by `job_has` callers in hy-goal.c. -/
def SOLVABLE_NAME : Nat := 2

/-- libsolv knownid for the provides keyname. -/
def SOLVABLE_PROVIDES : Nat := 6

/-- libsolv relation flag used for `REL_ARCH` interning. -/
def REL_ARCH : Nat := 12

/-- libsolv relation flag used for `REL_EQ` interning. -/
def REL_EQ : Nat := 13

/-! ## Query engine data model (hy-query.c) -/

/-- One solvable record as the query code reads it: interned name, arch
and evr ids plus the owning repo id (0 = no repo).  `evr = 0` plays the
role of `ID_EMPTY`. -/
structure Solvable where
  name : Nat := 0
  arch : Nat := 0
  evr : Nat := 0
  repo : Nat := 0
  deriving DecidableEq

/-- Comparison-type bitmask `HY_EQ|HY_GT|HY_LT|HY_SUBSTR|HY_GLOB|HY_ICASE|HY_NOT`
modelled structurally; `negated` is the `HY_NOT` bit, always handled at
evaluation time. -/
structure CmpType where
  eq : Bool := false
  gt : Bool := false
  lt : Bool := false
  substr : Bool := false
  glob : Bool := false
  icase : Bool := false
  negated : Bool := false
  deriving DecidableEq

/-- The query keynames whose producers are embedded. -/
inductive Keyname where
  | pkg
  | all
  | name
  | arch
  | epoch
  | evr
  | reponame
  | provides
  | nevra
  deriving DecidableEq

/-- A single filter match; the union `_Match` of hy-query.c. -/
inductive QMatch where
  | num (n : Int)
  | str (s : String)
  | pset (s : Finset Nat)
  | reldep (r : Nat)
  deriving DecidableEq

/-- A staged filter: keyname, comparison mask and the ordered matches (the C field `matches` is called `fmatches` here since `matches` is reserved in Lean). -/
structure QFilter where
  keyname : Keyname
  cmp : CmpType := {}
  fmatches : List QMatch := []
  deriving DecidableEq

/-- Dataiterator search options derived by `type2flags`. -/
structure DiFlags where
  searchString : Bool := false
  searchSubstring : Bool := false
  searchGlob : Bool := false
  nocase : Bool := false
  files : Bool := false
  deriving DecidableEq

/-- The pool as the query engine consumes it.  Function-valued fields
model the external libsolv capabilities the spec lists as out of scope
(interning, dataiterators, the provides index, evr comparison). -/
structure QPool where
  nsolvables : Nat
  solv : Nat → Solvable
  pkgSolvables : Finset Nat
  considered : Option (Finset Nat) := none
  installedRepo : Nat := 0
  evrValue : Nat → Nat := fun e => e
  epochOf : Nat → Nat := fun _ => 0
  str2idCreate : String → Nat := fun _ => 0
  repos : List (Nat × String) := []
  providersOf : Nat → List Nat := fun _ => []
  diMatches : Nat → String → DiFlags → Finset Nat := fun _ _ _ => ∅
  fnmatch : String → String → Bool → Bool := fun _ _ _ => false
  nevraOf : Nat → String := fun _ => ""
  whatUpgrades : Nat → Nat := fun _ => 0
  whatDowngrades : Nat → Nat := fun _ => 0

/-- `pool_evrcmp` on two interned evr ids, via the external total order. -/
def pool_evrcmp (pool : QPool) (a b : Nat) : Int :=
  (pool.evrValue a : Int) - (pool.evrValue b : Int)

/-- The query object: flags, staged filters, applied bit, result bitmap
and the modifier flags. -/
structure HyQuery where
  ignoreExcludes : Bool := false
  filters : List QFilter := []
  applied : Bool := false
  result : Option (Finset Nat) := none
  downgradable : Bool := false
  downgrades : Bool := false
  updatable : Bool := false
  updates : Bool := false
  latest : Bool := false
  latestPerArch : Bool := false
  deriving DecidableEq

/-- `di_keyname2id`: keyname to libsolv knownid for dataiterator filters. -/
def di_keyname2id : Keyname → Nat
  | .name => 2
  | .arch => 3
  | .evr => 4
  | _ => 0

/-- `type2flags`: translate a comparison mask to dataiterator flags. -/
def type2flags (t : CmpType) (_keyname : Keyname) : DiFlags :=
  { searchString := t.eq
    searchSubstring := t.substr
    searchGlob := t.glob
    nocase := t.icase
    files := false }
/- (the `HY_PKG_FILE` branch of type2flags sets FILES flags; the file
keyname is not among the embedded producers, so `files` stays false) -/

/-- `filter_pkg`: the per-filter bitmap is a clone of the packageset match. -/
def filter_pkg (f : QFilter) : Finset Nat :=
  match f.fmatches with
  | [QMatch.pset s] => s
  | _ => ∅

/-- `filter_all`: just leaves the bitmap empty. -/
def filter_all (_f : QFilter) : Finset Nat := ∅

/-- `filter_dataiterator`: OR over all string matches of the external
dataiterator result set. -/
def filter_dataiterator (pool : QPool) (f : QFilter) : Finset Nat :=
  f.fmatches.foldl
    (fun m mt =>
      match mt with
      | QMatch.str s =>
          m ∪ pool.diMatches (di_keyname2id f.keyname) s (type2flags f.cmp f.keyname)
      | _ => m)
    ∅

/-- `filter_epoch`: numeric epoch comparison over packages in the current
result (solvables with an empty evr are skipped). -/
def filter_epoch (pool : QPool) (cur : Finset Nat) (f : QFilter) : Finset Nat :=
  f.fmatches.foldl
    (fun m mt =>
      match mt with
      | QMatch.num epoch =>
          m ∪ (Finset.Ico 1 pool.nsolvables).filter (fun id =>
            id ∈ cur ∧ (pool.solv id).evr ≠ 0 ∧
            (let pkgEpoch : Int := pool.epochOf (pool.solv id).evr
             (pkgEpoch > epoch ∧ f.cmp.gt = true) ∨
             (pkgEpoch < epoch ∧ f.cmp.lt = true) ∨
             (pkgEpoch = epoch ∧ f.cmp.eq = true)))
      | _ => m)
    ∅

/-- `filter_evr`: intern the match string and compare with `pool_evrcmp`
against each package in the current result. -/
def filter_evr (pool : QPool) (cur : Finset Nat) (f : QFilter) : Finset Nat :=
  f.fmatches.foldl
    (fun m mt =>
      match mt with
      | QMatch.str s =>
          let matchEvr := pool.str2idCreate s
          m ∪ (Finset.Ico 1 pool.nsolvables).filter (fun id =>
            id ∈ cur ∧
            (let cmp := pool_evrcmp pool (pool.solv id).evr matchEvr
             (cmp > 0 ∧ f.cmp.gt = true) ∨
             (cmp < 0 ∧ f.cmp.lt = true) ∨
             (cmp = 0 ∧ f.cmp.eq = true)))
      | _ => m)
    ∅

/-- `filter_reponame`: precompute the matched repo-id table, then keep
current-result members whose repo is matched (`EQ` only). -/
def filter_reponame (pool : QPool) (cur : Finset Nat) (f : QFilter) : Finset Nat :=
  let ourids : Nat → Bool := fun rid =>
    pool.repos.any (fun rn =>
      rn.1 = rid ∧ f.fmatches.any (fun mt =>
        match mt with
        | QMatch.str s => rn.2 = s
        | _ => false))
  (Finset.Ico 1 pool.nsolvables).filter (fun i =>
    i ∈ cur ∧ (pool.solv i).repo ≠ 0 ∧ ourids (pool.solv i).repo)

/-- `filter_provides_reldep`: union of providers of each reldep match. -/
def filter_provides_reldep (pool : QPool) (f : QFilter) : Finset Nat :=
  f.fmatches.foldl
    (fun m mt =>
      match mt with
      | QMatch.reldep r => m ∪ (pool.providersOf r).toFinset
      | _ => m)
    ∅

/-- `filter_nevra`: string or glob comparison against the canonical NEVRA
render of each package in the current result. -/
def filter_nevra (pool : QPool) (cur : Finset Nat) (f : QFilter) : Finset Nat :=
  (Finset.Ico 1 pool.nsolvables).filter (fun id =>
    id ∈ cur ∧ f.fmatches.any (fun mt =>
      match mt with
      | QMatch.str pat =>
          if f.cmp.glob then pool.fnmatch pat (pool.nevraOf id) f.cmp.icase
          else pat = pool.nevraOf id
      | _ => false))

/-- The per-filter bitmap dispatch of `hy_query_apply`. -/
def filter_bitmap (pool : QPool) (cur : Finset Nat) (f : QFilter) : Finset Nat :=
  match f.keyname with
  | .pkg => filter_pkg f
  | .all => filter_all f
  | .epoch => filter_epoch pool cur f
  | .evr => filter_evr pool cur f
  | .reponame => filter_reponame pool cur f
  | .provides => filter_provides_reldep pool f
  | .nevra => filter_nevra pool cur f
  | _ => filter_dataiterator pool f

/-- One iteration of the filter loop of `hy_query_apply`: compute the
per-filter bitmap and subtract it when `HY_NOT` is set, intersect
otherwise. -/
def apply_filter_step (pool : QPool) (cur : Finset Nat) (f : QFilter) : Finset Nat :=
  let m := filter_bitmap pool cur f
  if f.cmp.negated then cur \ m else cur ∩ m

/-- `init_result`: all package-kind solvables, intersected with the
considered bitmap unless the query ignores excludes. -/
def init_result (pool : QPool) (q : HyQuery) : Finset Nat :=
  let base := pool.pkgSolvables
  if q.ignoreExcludes then base
  else
    match pool.considered with
    | some c => base ∩ c
    | none => base

/-- `filter_updown`: keep only non-installed members of the result that
upgrade (or downgrade) some installed package. -/
def filter_updown (pool : QPool) (downgrade : Bool) (res : Finset Nat) : Finset Nat :=
  let m := (Finset.Ico 1 pool.nsolvables).filter (fun i =>
    i ∈ res ∧ (pool.solv i).repo ≠ pool.installedRepo ∧
    (if downgrade then pool.whatDowngrades i > 0 else pool.whatUpgrades i > 0))
  res ∩ m

/-- `filter_updown_able`: keep only installed packages reachable as the
upgrade (or downgrade) target of some non-installed package. -/
def filter_updown_able (pool : QPool) (downgradable : Bool) (res : Finset Nat) : Finset Nat :=
  let m := (pool.pkgSolvables.filter (fun p =>
    (pool.solv p).repo ≠ pool.installedRepo ∧
    (let what := if downgradable then pool.whatDowngrades p else pool.whatUpgrades p
     what ≠ 0 ∧ what ∈ res))).image
      (fun p => if downgradable then pool.whatDowngrades p else pool.whatUpgrades p)
  res ∩ m

/-- `filter_latest_sortcmp`: the non-per-arch comparator.  NB: as in the
source, `sb` is computed from `ap` as well, so the name comparison always
sees the same solvable twice and the comparator degenerates to ordering
by solvable id. -/
def filter_latest_sortcmp (pool : QPool) (a b : Nat) : Int :=
  let sa := pool.solv a
  let sb := pool.solv a
  let r : Int := (sa.name : Int) - (sb.name : Int)
  if r ≠ 0 then r else (a : Int) - (b : Int)

/-- `filter_latest_sortcmp_byarch`: name, then arch, then id. -/
def filter_latest_sortcmp_byarch (pool : QPool) (a b : Nat) : Int :=
  let sa := pool.solv a
  let sb := pool.solv b
  let r : Int := (sa.name : Int) - (sb.name : Int)
  if r ≠ 0 then r
  else
    let r2 : Int := (sa.arch : Int) - (sb.arch : Int)
    if r2 ≠ 0 then r2 else (a : Int) - (b : Int)

/-- Insert into a comparator-sorted list; building block of `solv_sort`. -/
def solv_insert (cmp : Nat → Nat → Int) (x : Nat) : List Nat → List Nat
  | [] => [x]
  | y :: ys => if cmp x y ≤ 0 then x :: y :: ys else y :: solv_insert cmp x ys

/-- `solv_sort`: deterministic sort by an integer comparator. -/
def solv_sort (l : List Nat) (cmp : Nat → Nat → Int) : List Nat :=
  l.foldr (solv_insert cmp) []

/-- The block-selection loop of `filter_latest`: walk the sorted ids,
start a new block on a name (or arch) change, and within a block clear
everything but the highest-evr member (ties keep the block head). -/
def filter_latest_loop (pool : QPool) (perArch : Bool) :
    List Nat → Finset Nat → Nat → Option Solvable → Finset Nat
  | [], res, _, _ => res
  | p :: rest, res, hp, highest =>
    let considered := pool.solv p
    match highest with
    | none => filter_latest_loop pool perArch rest res p (some considered)
    | some h =>
      if h.name ≠ considered.name ∨ (perArch ∧ h.arch ≠ considered.arch) then
        filter_latest_loop pool perArch rest res p (some considered)
      else if pool_evrcmp pool h.evr considered.evr < 0 then
        filter_latest_loop pool perArch rest (res.erase hp) p (some considered)
      else
        filter_latest_loop pool perArch rest (res.erase p) hp (some h)

/-- `filter_latest`: gather the result ids in ascending order, sort with
the (buggy) comparator, and run the block-selection loop. -/
def filter_latest (pool : QPool) (perArch : Bool) (res : Finset Nat) : Finset Nat :=
  let samename := ((List.range pool.nsolvables).drop 1).filter (fun i => i ∈ res)
  if samename.length < 2 then res
  else
    let sorted :=
      if perArch then solv_sort samename (filter_latest_sortcmp_byarch pool)
      else solv_sort samename (filter_latest_sortcmp pool)
    filter_latest_loop pool perArch sorted res 0 none

/-- `hy_query_apply`: lazily initialise the result, run every staged
filter in insertion order, then the modifiers in their fixed order, set
the applied bit and clear the staged filters (and modifier flags, as
`clear_filters` does). -/
def hy_query_apply (pool : QPool) (q : HyQuery) : HyQuery :=
  if q.applied then q
  else
    let res0 := match q.result with
      | some r => r
      | none => init_result pool q
    let res1 := q.filters.foldl (apply_filter_step pool) res0
    let res2 := if q.downgradable then filter_updown_able pool true res1 else res1
    let res3 := if q.downgrades then filter_updown pool true res2 else res2
    let res4 := if q.updatable then filter_updown_able pool false res3 else res3
    let res5 := if q.updates then filter_updown pool false res4 else res4
    let res6 := if q.latest then filter_latest pool q.latestPerArch res5 else res5
    { q with
      result := some res6
      applied := true
      filters := []
      downgradable := false
      downgrades := false
      updatable := false
      updates := false
      latest := false
      latestPerArch := false }

/-- `hy_query_filter_empty`: stage the `HY_PKG_ALL, HY_EQ, -1` filter.
As in the source, the applied bit is NOT reset here. -/
def hy_query_filter_empty (q : HyQuery) : HyQuery :=
  { q with filters := q.filters ++
      [{ keyname := .all, cmp := { eq := true }, fmatches := [QMatch.num (-1)] }] }

/-- `hy_query_union`: apply both queries and OR the result bitmaps. -/
def hy_query_union (pool : QPool) (q other : HyQuery) : HyQuery :=
  let q1 := hy_query_apply pool q
  let o1 := hy_query_apply pool other
  { q1 with result := some (q1.result.getD ∅ ∪ o1.result.getD ∅) }

/-- `hy_query_intersection`: apply both queries and AND the result bitmaps. -/
def hy_query_intersection (pool : QPool) (q other : HyQuery) : HyQuery :=
  let q1 := hy_query_apply pool q
  let o1 := hy_query_apply pool other
  { q1 with result := some (q1.result.getD ∅ ∩ o1.result.getD ∅) }

/-- `hy_query_difference`: apply both queries and subtract the other
result bitmap. -/
def hy_query_difference (pool : QPool) (q other : HyQuery) : HyQuery :=
  let q1 := hy_query_apply pool q
  let o1 := hy_query_apply pool other
  { q1 with result := some (q1.result.getD ∅ \ o1.result.getD ∅) }

/-! ## Goal engine data model (hy-goal.c) -/

/-- A solvable as the goal code reads it: interned name and evr, owning
repo, and the requires id-array. -/
structure GSolvable where
  name : Nat := 0
  evr : Nat := 0
  repo : Nat := 0
  requires : List Nat := []
  deriving DecidableEq

/-- The pool as the goal engine consumes it; function-valued fields are
the external libsolv capabilities (`FOR_PROVIDES`, `FOR_PKG_PROVIDES`,
interned strings, evr order). -/
structure GPool where
  nsolvables : Nat
  solv : Nat → GSolvable
  installedRepo : Nat := 0
  evrValue : Nat → Nat := fun e => e
  providersOf : Nat → List Nat := fun _ => []
  pkgProvidersOf : Nat → List Nat := fun _ => []
  nameStrOf : Nat → String := fun _ => ""

/-- `pool_evrcmp` for the goal pool. -/
def gpool_evrcmp (pool : GPool) (a b : Nat) : Int :=
  (pool.evrValue a : Int) - (pool.evrValue b : Int)

/-- The sack policy knobs the goal code reads. -/
structure SackModel where
  installonly : List Nat := []
  installonlyLimit : Nat := 0
  runningKernel : Int := -1

/-- `can_depend_on`: some literal of the requires of `sa` can be provided
by `b`. -/
def can_depend_on (pool : GPool) (sa : GSolvable) (b : Nat) : Bool :=
  sa.requires.any (fun reqDep => (pool.providersOf reqDep).any (fun p => p = b))

/-- `sort_packages`: the install-only provider comparator — name first,
then (given a running kernel) the kernel or anything that can depend on
it last, then ascending evr. -/
def sort_packages (pool : GPool) (kernel : Int) (a b : Nat) : Int :=
  let sa := pool.solv a
  let sb := pool.solv b
  let nameDiff : Int := (sa.name : Int) - (sb.name : Int)
  if nameDiff ≠ 0 then nameDiff
  else if 0 ≤ kernel ∧ ((a : Int) = kernel ∨ can_depend_on pool sa kernel.toNat) then 1
  else if 0 ≤ kernel ∧ ((b : Int) = kernel ∨ can_depend_on pool sb kernel.toNat) then -1
  else gpool_evrcmp pool sa.evr sb.evr

/-- `same_name_subqueue`: pop the last element of the queue and keep
popping while the name matches, so the extracted subqueue reverses the
tail of the sorted array; returns the subqueue and the remaining queue. -/
def same_name_subqueue (pool : GPool) (inq : List Nat) : List Nat × List Nat :=
  match inq.reverse with
  | [] => ([], [])
  | el :: rest =>
    let nm := (pool.solv el).name
    (el :: rest.takeWhile (fun p => (pool.solv p).name = nm),
     (rest.dropWhile (fun p => (pool.solv p).name = nm)).reverse)

theorem same_name_subqueue_rest_lt (pool : GPool) (inq : List Nat) (h : inq ≠ []) :
    (same_name_subqueue pool inq).2.length < inq.length := by
  unfold same_name_subqueue
  match hrev : inq.reverse with
  | [] =>
    exact absurd (by simpa using congrArg List.reverse hrev) h
  | el :: rest =>
    simp only
    have h1 : (rest.dropWhile fun p => (pool.solv p).name = (pool.solv el).name).length
        ≤ rest.length := by
      simpa using List.Sublist.length_le (List.dropWhile_sublist _)
    have h2 : rest.length + 1 = inq.length := by
      have := congrArg List.length hrev
      simpa [Nat.add_comm] using this.symm
    simp only [List.length_reverse]
    omega

/-- The body of the `limit_installonly_packages` while-loop, as
structural recursion on a fuel bound (the loop consumes at least one
queue element per iteration, so any fuel of at least the queue length is
exact). -/
def installonly_subqueue_jobs_go (pool : GPool) (limit : Nat) :
    Nat → List Nat → List (Nat × Nat) × Bool
  | 0, _ => ([], false)
  | fuel + 1, lst =>
    if lst = [] then ([], false)
    else
      let subRest := same_name_subqueue pool lst
      let restOut := installonly_subqueue_jobs_go pool limit fuel subRest.2
      if subRest.1.length ≤ limit then restOut
      else
        (subRest.1.enum.map (fun ji =>
            ((if ji.1 < limit then SOLVER_INSTALL else SOLVER_ERASE) |||
              SOLVER_SOLVABLE, ji.2)) ++ restOut.1,
          true)

/-- The while-loop of `limit_installonly_packages`: repeatedly extract a
same-name subqueue; for each subqueue longer than the limit push
`INSTALL` for the first `limit` entries and `ERASE` for the remainder,
and request a re-solve. -/
def installonly_subqueue_jobs (pool : GPool) (limit : Nat) (lst : List Nat) :
    List (Nat × Nat) × Bool :=
  installonly_subqueue_jobs_go pool limit lst.length lst

/-- The subqueue decomposition on its own, fuel-bounded. -/
def same_name_subqueues_go (pool : GPool) : Nat → List Nat → List (List Nat)
  | 0, _ => []
  | fuel + 1, lst =>
    if lst = [] then []
    else
      let subRest := same_name_subqueue pool lst
      subRest.1 :: same_name_subqueues_go pool fuel subRest.2

/-- The subqueue decomposition on its own (for stating properties of the
job construction). -/
def same_name_subqueues (pool : GPool) (lst : List Nat) : List (List Nat) :=
  same_name_subqueues_go pool lst.length lst

/-- Transaction step kinds as the goal model needs them. -/
inductive StepKind where
  | installK
  | removeK
  | obsoleteK
  deriving DecidableEq

/-- A solved transaction: the ordered steps with their kinds. -/
structure TransModel where
  steps : List (Nat × StepKind) := []
  deriving DecidableEq

/-- The solver as an oracle: what `solver_solve` returns on a given job
queue, the transaction created from the solver state after solving a
job queue, the decision level of each solvable, and the problem strings. -/
structure SolverOracle where
  solveFailed : List (Nat × Nat) → Bool := fun _ => false
  transSteps : List (Nat × Nat) → List (Nat × StepKind) := fun _ => []
  declevel : Nat → Int := fun _ => 0
  problems : List String := []

/-- `limit_installonly_packages`: disabled when the limit is 0; otherwise
for each install-only name collect the solver-decided providers, and when
they exceed the limit sort them and emit the subqueue jobs; returns the
extended job queue and whether a re-solve is needed. -/
def limit_installonly_packages (sack : SackModel) (pool : GPool) (o : SolverOracle)
    (job : List (Nat × Nat)) : List (Nat × Nat) × Bool :=
  if sack.installonlyLimit = 0 then (job, false)
  else
    sack.installonly.foldl
      (fun acc dep =>
        let q := (pool.pkgProvidersOf dep).filter (fun p => o.declevel p > 0)
        if q.length ≤ sack.installonlyLimit then acc
        else
          let sorted := solv_sort q (sort_packages pool sack.runningKernel)
          let out := installonly_subqueue_jobs pool sack.installonlyLimit sorted
          (acc.1 ++ out.1, acc.2 ∨ out.2))
      (job, false)

/-- The goal state the solve path reads and writes. -/
structure GoalSt where
  protectedIds : Option (Finset Nat) := none
  removalOfProtected : List Nat := []
  trans : Option TransModel := none
  solvProblems : List String := []
  deriving DecidableEq

/-- Modelled from the spec: `hif_goal_get_packages` lives in hif-goal.c,
which is not under src/; per the spec the protected-removal check walks
the transaction removals and obsoletes, so this returns the ids of the
steps of those two kinds, in step order. -/
def hif_goal_get_packages_remove_obsolete (trans : TransModel) : List Nat :=
  trans.steps.filterMap (fun s =>
    if s.2 = StepKind.removeK ∨ s.2 = StepKind.obsoleteK then some s.1 else none)

/-- `protected_in_removals`: rebuild the removal-of-protected list as the
remove/obsolete packages that are in the protected map, returning whether
any protected package is removed. -/
def protected_in_removals (g : GoalSt) : Bool × GoalSt :=
  match g.protectedIds with
  | none => (false, { g with removalOfProtected := [] })
  | some prot =>
    let removal :=
      (match g.trans with
       | some t => hif_goal_get_packages_remove_obsolete t
       | none => []).filter (fun p => p ∈ prot)
    (!removal.isEmpty, { g with removalOfProtected := removal })

/-- `allow_uninstall_all_but_protected`: make sure the protected map
exists and contains the running kernel, then (when the allow-uninstall
flag is on) push `ALLOWUNINSTALL` for every installed solvable not in the
protected map. -/
def allow_uninstall_all_but_protected (pool : GPool) (kernel : Int) (g : GoalSt)
    (job : List (Nat × Nat)) (allowUninstall : Bool) : GoalSt × List (Nat × Nat) :=
  let prot0 := g.protectedIds.getD ∅
  let prot := if 0 < kernel then prot0 ∪ {kernel.toNat} else prot0
  let g1 := { g with protectedIds := some prot }
  if allowUninstall then
    (g1, job ++ (List.range pool.nsolvables).filterMap (fun id =>
      if 1 ≤ id ∧ (pool.solv id).repo = pool.installedRepo ∧ id ∉ prot then
        some (SOLVER_ALLOWUNINSTALL ||| SOLVER_SOLVABLE, id)
      else none))
  else (g1, job)

/-- The outcome of `solve`: the return code, the updated goal state, and
(as instrumentation) how many times `solver_solve` ran. -/
structure SolveOutcome where
  ret : Nat
  goal : GoalSt
  solverCalls : Nat
  deriving DecidableEq

/-- `solve` (hy-goal.c, the no-user-callback path): free any previous
transaction, run the solver, run the install-only limiting and — when it
pushed jobs — widen allow-uninstall and re-solve exactly once, then
create the transaction and fail if it removes protected packages.  The
transaction is kept in the goal state even on the protected failure, as
in the source. -/
def solve (pool : GPool) (sack : SackModel) (g0 : GoalSt) (job : List (Nat × Nat))
    (o : SolverOracle) : SolveOutcome :=
  let g := { g0 with trans := none, solvProblems := o.problems }
  if o.solveFailed job then { ret := 1, goal := g, solverCalls := 1 }
  else
    let limited := limit_installonly_packages sack pool o job
    if limited.2 then
      let widened :=
        allow_uninstall_all_but_protected pool sack.runningKernel g limited.1 true
      if o.solveFailed widened.2 then
        { ret := 1, goal := widened.1, solverCalls := 2 }
      else
        let g2 := { widened.1 with trans := some { steps := o.transSteps widened.2 } }
        let pr := protected_in_removals g2
        { ret := if pr.1 then 1 else 0, goal := pr.2, solverCalls := 2 }
    else
      let g2 := { g with trans := some { steps := o.transSteps limited.1 } }
      let pr := protected_in_removals g2
      { ret := if pr.1 then 1 else 0, goal := pr.2, solverCalls := 1 }

/-- `hy_goal_count_problems`: the solver problem count plus one when the
removal-of-protected list is non-empty. -/
def hy_goal_count_problems (g : GoalSt) : Nat :=
  g.solvProblems.length + min 1 g.removalOfProtected.length

/-- `hy_goal_describe_problem`: out-of-range indices give NULL; indices
past the solver problems build the protected-packages message — reading
the list, as the source does, at the problem index `i` on every loop
iteration `j` (out-of-bounds reads are modelled as NULL). -/
def hy_goal_describe_problem (pool : GPool) (g : GoalSt) (i : Nat) : Option String :=
  if i ≥ hy_goal_count_problems g then none
  else if i ≥ g.solvProblems.length then
    (List.range g.removalOfProtected.length).foldl
      (fun acc j =>
        acc.bind (fun s =>
          (g.removalOfProtected.get? i).map (fun pkg =>
            if j = 0 then s ++ pool.nameStrOf ((pool.solv pkg).name)
            else s ++ ", " ++ pool.nameStrOf ((pool.solv pkg).name))))
      (some "The operation would result in removing the following protected packages: ")
  else g.solvProblems.get? i

/-! ## Selector translation (hy-goal.c, sltr2job) -/

/-- The error codes the embedded functions surface (hif-types.h). -/
inductive HifError where
  | failed
  | internalError
  | badSelector
  | invalidArchitecture
  | noSolution
  | removalOfProtectedPkg
  | packageNotFound
  | gpgSignatureInvalid
  | noSpace
  | failedConfigParsing
  deriving DecidableEq

/-- A single selector-axis filter: comparison type, the string match and
(for the provides axis) the interned reldep id; `keynameIsVersion`
records whether the evr axis was staged under `HY_PKG_VERSION`. -/
structure SelFilter where
  cmp : CmpType := { eq := true }
  str : String := ""
  reldep : Nat := 0
  keynameIsVersion : Bool := false
  deriving DecidableEq

/-- A selector: at most one filter per axis. -/
structure HySelector where
  f_name : Option SelFilter := none
  f_provides : Option SelFilter := none
  f_file : Option SelFilter := none
  f_arch : Option SelFilter := none
  f_evr : Option SelFilter := none
  f_reponame : Option SelFilter := none
  deriving DecidableEq

/-- The pool capabilities `sltr2job` consumes (dataiterators,
`selection_make`, `selection_filter`, interning, `str2archid`). -/
structure SelPool where
  str2id : String → Option Nat := fun _ => none
  str2idCreate : String → Nat := fun _ => 0
  nameGlobIds : String → List Nat := fun _ => []
  isPackage : Nat → Bool := fun _ => true
  selectionMake : String → Bool → Option (List (Nat × Nat)) := fun _ _ => none
  providesGlobFirst : String → Option Nat := fun _ => none
  arch2id : String → Nat := fun _ => 0
  rel2id : Nat → Nat → Nat → Nat := fun a _ _ => a
  repos : List (Nat × String) := []
  selectionFilter : List (Nat × Nat) → List (Nat × Nat) → List (Nat × Nat) :=
    fun j _ => j

/-- `job_has`: whether the job queue already holds the (what, id) pair. -/
def job_has (job : List (Nat × Nat)) (what id : Nat) : Bool :=
  job.any (fun e => e.1 = what ∧ e.2 = id)

/-- The `HY_EQ` comparison mask. -/
def cmpEQ : CmpType := { eq := true }

/-- The `HY_GLOB` comparison mask. -/
def cmpGLOB : CmpType := { glob := true }

/-- `filter_name2job`: `EQ` pushes a `SOLVER_SOLVABLE_NAME` entry when
the name is interned; `GLOB` walks the dataiterator results, skipping
non-packages and entries already present. -/
def filter_name2job (pool : SelPool) (f : Option SelFilter)
    (job : List (Nat × Nat)) : Except HifError (List (Nat × Nat)) :=
  match f with
  | none => .ok job
  | some f =>
    if f.cmp = cmpEQ then
      match pool.str2id f.str with
      | some id => .ok (job ++ [(SOLVER_SOLVABLE_NAME, id)])
      | none => .ok job
    else if f.cmp = cmpGLOB then
      .ok ((pool.nameGlobIds f.str).foldl
        (fun j id =>
          if ¬ pool.isPackage id then j
          else if job_has j SOLVABLE_NAME id then j
          else j ++ [(SOLVER_SOLVABLE_NAME, id)])
        job)
    else .error .failed

/-- `filter_file2job`: `selection_make` with the filelist flags replaces
the selection; a zero selection count is an error. -/
def filter_file2job (pool : SelPool) (f : Option SelFilter)
    (job : List (Nat × Nat)) : Except HifError (List (Nat × Nat)) :=
  match f with
  | none => .ok job
  | some f =>
    match pool.selectionMake f.str f.cmp.glob with
    | some sel => .ok sel
    | none => .error .failed

/-- `filter_provides2job`: `EQ` pushes the reldep id as a
`SOLVER_SOLVABLE_PROVIDES` entry; `GLOB` takes the first dataiterator
provides match (no match is undefined in the source and modelled as an
error). -/
def filter_provides2job (pool : SelPool) (f : Option SelFilter)
    (job : List (Nat × Nat)) : Except HifError (List (Nat × Nat)) :=
  match f with
  | none => .ok job
  | some f =>
    if f.cmp = cmpEQ then .ok (job ++ [(SOLVER_SOLVABLE_PROVIDES, f.reldep)])
    else if f.cmp = cmpGLOB then
      match pool.providesGlobFirst f.str with
      | some id =>
        if job_has job SOLVABLE_PROVIDES id then .ok job
        else .ok (job ++ [(SOLVER_SOLVABLE_PROVIDES, id)])
      | none => .error .failed
    else .error .failed

/-- `filter_arch2job`: an unknown arch string is
`HIF_ERROR_INVALID_ARCHITECTURE`; otherwise every job entry is rewritten
to the `REL_ARCH` relation with `SOLVER_SETARCH` set. -/
def filter_arch2job (pool : SelPool) (f : Option SelFilter)
    (job : List (Nat × Nat)) : Except HifError (List (Nat × Nat)) :=
  match f with
  | none => .ok job
  | some f =>
    let archid := pool.arch2id f.str
    if archid = 0 then .error .invalidArchitecture
    else .ok (job.map (fun e =>
      (e.1 ||| SOLVER_SETARCH, pool.rel2id e.2 archid REL_ARCH)))

/-- `filter_evr2job`: every job entry is rewritten to the `REL_EQ`
relation with `SOLVER_SETEV` (version keyname) or `SOLVER_SETEVR` set. -/
def filter_evr2job (pool : SelPool) (f : Option SelFilter)
    (job : List (Nat × Nat)) : Except HifError (List (Nat × Nat)) :=
  match f with
  | none => .ok job
  | some f =>
    let evr := pool.str2idCreate f.str
    let constr := if f.keynameIsVersion then SOLVER_SETEV else SOLVER_SETEVR
    .ok (job.map (fun e => (e.1 ||| constr, pool.rel2id e.2 evr REL_EQ)))

/-- `filter_reponame2job`: build the repo selection for the matching repo
names and let the external `selection_filter` narrow the job. -/
def filter_reponame2job (pool : SelPool) (f : Option SelFilter)
    (job : List (Nat × Nat)) : Except HifError (List (Nat × Nat)) :=
  match f with
  | none => .ok job
  | some f =>
    let repoSel := pool.repos.filterMap (fun rn =>
      if rn.2 = f.str then
        some (SOLVER_SOLVABLE_REPO ||| SOLVER_SETREPO, rn.1)
      else none)
    .ok (pool.selectionFilter job repoSel)

/-- `sltr2job`: with no required axis the translation stops — an error
only when some optional axis was staged; otherwise the axis filters run
in order and the built entries are pushed onto the caller queue with the
solver action OR-ed in.  Returns the error (none on success) and the
entries appended to the caller queue. -/
def sltr2job (pool : SelPool) (sltr : HySelector) (solverAction : Nat) :
    Option HifError × List (Nat × Nat) :=
  let anyOptFilter :=
    sltr.f_arch.isSome || sltr.f_evr.isSome || sltr.f_reponame.isSome
  let anyReqFilter :=
    sltr.f_name.isSome || sltr.f_provides.isSome || sltr.f_file.isSome
  if ¬ anyReqFilter then
    if anyOptFilter then (some .badSelector, []) else (none, [])
  else
    match
      (filter_name2job pool sltr.f_name []).bind (fun j1 =>
      (filter_file2job pool sltr.f_file j1).bind (fun j2 =>
      (filter_provides2job pool sltr.f_provides j2).bind (fun j3 =>
      (filter_arch2job pool sltr.f_arch j3).bind (fun j4 =>
      (filter_evr2job pool sltr.f_evr j4).bind (fun j5 =>
      filter_reponame2job pool sltr.f_reponame j5)))))
    with
    | .error e => (some e, [])
    | .ok jobSltr =>
      (none, jobSltr.map (fun e => (e.1 ||| solverAction, e.2)))

/-! ## Transaction driver (hif-transaction.c) -/

def HIF_TRANSACTION_FLAG_ONLY_TRUSTED : Nat := 1
def HIF_TRANSACTION_FLAG_ALLOW_REINSTALL : Nat := 2
def HIF_TRANSACTION_FLAG_ALLOW_DOWNGRADE : Nat := 4
def HIF_TRANSACTION_FLAG_NODOCS : Nat := 8
def HIF_TRANSACTION_FLAG_TEST : Nat := 16

/-- rpm problem-filter flags (public rpmlib values). -/
def RPMPROB_FILTER_REPLACEPKG : Nat := 4
def RPMPROB_FILTER_OLDPACKAGE : Nat := 64
def RPMPROB_FILTER_DISKSPACE : Nat := 128

/-- Package actions (`HifStateAction`) as the commit path reads them. -/
inductive StateAction where
  | unknownA
  | installA
  | reinstallA
  | downgradeA
  | updateA
  | removeA
  | obsoleteA
  | cleanupA
  deriving DecidableEq

/-- Per-package attributes the commit path reads (name, rpm filename,
pkgid, the canonical package-id string and the download size). -/
structure PkgAttr where
  pname : String := ""
  filename : String := ""
  pkgid : Option String := none
  packageId : String := ""
  size : Nat := 0
  deriving DecidableEq

/-- What the solved goal hands to commit: the install and remove lists,
the per-install obsoleted list, the globally-obsoleted list and the
download list populated by depsolve. -/
structure CommitGoal where
  installL : List Nat := []
  removeL : List Nat := []
  obsoletedBy : Nat → List Nat := fun _ => []
  allObsoleted : List Nat := []
  pkgsToDownload : List Nat := []

/-- The context configuration commit and download read. -/
structure CommitCtx where
  checkTransaction : Bool := false
  checkDiskSpace : Bool := true
  keepCache : Bool := false
  cacheDir : Option String := none
  freeSpace : Option Nat := none

/-- The external rpm runtime, keyring and lock as an oracle of success
bits; commit only branches on these. -/
structure CommitOracle where
  takeLockOk : Bool := true
  importKeysOk : Bool := true
  untrustedOk : Bool := true
  setRootOk : Bool := true
  ensureRepoOk : Nat → Bool := fun _ => true
  addInstallOk : Nat → Bool := fun _ => true
  addRemoveOk : Nat → Bool := fun _ => true
  testProblemsFound : Bool := false
  runRcNegative : Bool := false
  runProblemsFound : Bool := false
  reachedWriting : Bool := true
  yumdbOk : Bool := true
  deleteOk : Bool := true

/-- The externally visible operations commit performs, in order. -/
inductive CommitEvent where
  | takeLock
  | importKeys
  | checkUntrusted
  | setRoot
  | addInstall (id : Nat) (allowUntrusted isUpdate : Bool)
  | addRemove (id : Nat)
  | rpmOrder
  | rpmCheck
  | rpmRun (problemsFilter : Nat) (testMode : Bool)
  | writeYumdb
  | deletePkgs
  | checkFreeSpace
  deriving DecidableEq

/-- The install loop of commit: ensure the repo, then hand each install
file to the rpm runtime with the allow-untrusted and is-update bits
derived from the flags and the package action. -/
def commit_install_loop (o : CommitOracle) (flags : Nat) (act : Nat → StateAction) :
    List Nat → List CommitEvent → Option HifError × List CommitEvent
  | [], evs => (none, evs)
  | p :: rest, evs =>
    if ¬ o.ensureRepoOk p then (some .internalError, evs)
    else
      if ¬ o.addInstallOk p then (some .failed, evs)
      else commit_install_loop o flags act rest
        (evs ++ [.addInstall p ((flags &&& HIF_TRANSACTION_FLAG_ONLY_TRUSTED) = 0)
          (act p = .updateA ∨ act p = .downgradeA)])

/-- The remove loop of commit: hand each remove id to the rpm runtime
and relabel a remove as `CLEANUP` when an install of the same name
exists. -/
def commit_remove_loop (o : CommitOracle) (installL : List Nat) (attrs : Nat → PkgAttr) :
    List Nat → (Nat → StateAction) → List CommitEvent →
    Option HifError × (Nat → StateAction) × List CommitEvent
  | [], act, evs => (none, act, evs)
  | p :: rest, act, evs =>
    if ¬ o.addRemoveOk p then (some .failed, act, evs)
    else
      commit_remove_loop o installL attrs rest
        (if installL.any (fun ip => (attrs ip).pname = (attrs p).pname) then
          fun x => if x = p then StateAction.cleanupA else act x
        else act)
        (evs ++ [.addRemove p])

/-- The remove-helper construction of commit: for each update/downgrade
install, walk its obsoleted list — but, as in the source, index the list
with the outer install index `i` instead of the inner `j` (out-of-bounds
reads are modelled as failure `none`). -/
def commit_remove_helper (obsoletedBy : Nat → List Nat) (installL : List Nat)
    (act0 : Nat → StateAction) : Option (List Nat × (Nat → StateAction)) :=
  installL.enum.foldl
    (fun st ip =>
      st.bind (fun ha =>
        let isUpdate := ha.2 ip.2 = .updateA ∨ ha.2 ip.2 = .downgradeA
        if ¬ isUpdate then some ha
        else
          let pkglist := obsoletedBy ip.2
          (List.range pkglist.length).foldl
            (fun st2 _j =>
              st2.bind (fun ha2 =>
                (pkglist.get? ip.1).map (fun ptmp =>
                  (ha2.1 ++ [ptmp],
                   fun x => if x = ptmp then StateAction.cleanupA else ha2.2 x))))
            (some ha)))
    (some ([], act0))

/-- The erased-by-package-hash construction of commit: map each
update/downgrade/reinstall install to its displaced predecessors that are
not globally obsoleted — the inner list is again indexed with the outer
index `i`, as in the source. -/
def commit_erased_hash (g : CommitGoal) (attrs : Nat → PkgAttr)
    (act : Nat → StateAction) : Option (List (String × Nat)) :=
  g.installL.enum.foldl
    (fun st ip =>
      st.bind (fun acc =>
        if act ip.2 ≠ .updateA ∧ act ip.2 ≠ .downgradeA ∧ act ip.2 ≠ .reinstallA then
          some acc
        else
          let pkglist := g.obsoletedBy ip.2
          (List.range pkglist.length).foldl
            (fun st2 _j =>
              st2.bind (fun acc2 =>
                (pkglist.get? ip.1).map (fun ptmp =>
                  if ptmp ∈ g.allObsoleted then acc2
                  else acc2 ++ [((attrs ip.2).packageId, ptmp)])))
            (some acc)))
    (some [])

/-- The rpm problems filter derived from the context and flags. -/
def commit_problems_filter (ctx : CommitCtx) (flags : Nat) : Nat :=
  (if ¬ ctx.checkDiskSpace then RPMPROB_FILTER_DISKSPACE else 0) |||
  (if flags &&& HIF_TRANSACTION_FLAG_ALLOW_REINSTALL ≠ 0 then
    RPMPROB_FILTER_REPLACEPKG else 0) |||
  (if flags &&& HIF_TRANSACTION_FLAG_ALLOW_DOWNGRADE ≠ 0 then
    RPMPROB_FILTER_OLDPACKAGE else 0)

/-- The test-mode tail of commit: check the run return code and the rpm
problem set, then return. -/
def commit_test_tail (o : CommitOracle) (evs8 : List CommitEvent) :
    Except HifError Unit × List CommitEvent :=
  if o.runRcNegative then (.error .internalError, evs8)
  else if o.runProblemsFound then (.error .failed, evs8)
  else (.ok (), evs8)

/-- The real-run tail of commit: run checks, the writing-phase check,
the yumdb write and the cache cleanup. -/
def commit_real_tail (ctx : CommitCtx) (o : CommitOracle) (evs8 : List CommitEvent) :
    Except HifError Unit × List CommitEvent :=
  if o.runRcNegative then (.error .internalError, evs8)
  else if o.runProblemsFound then (.error .failed, evs8)
  else if ¬ o.reachedWriting then (.error .internalError, evs8)
  else if ¬ o.yumdbOk then (.error .failed, evs8 ++ [.writeYumdb])
  else if ¬ ctx.keepCache then
    (if ¬ o.deleteOk then (.error .failed, evs8 ++ [.writeYumdb] ++ [.deletePkgs])
     else (.ok (), evs8 ++ [.writeYumdb] ++ [.deletePkgs]))
  else (.ok (), evs8 ++ [.writeYumdb])

/-- The tail of commit after ordering: the optional test transaction,
then the rpm run in test mode or for real. -/
def commit_run_phase (ctx : CommitCtx) (flags : Nat) (o : CommitOracle)
    (evs6 : List CommitEvent) : Except HifError Unit × List CommitEvent :=
  if ctx.checkTransaction ∧ o.testProblemsFound then
    (.error .failed, if ctx.checkTransaction then evs6 ++ [.rpmCheck] else evs6)
  else if flags &&& HIF_TRANSACTION_FLAG_TEST ≠ 0 then
    commit_test_tail o
      ((if ctx.checkTransaction then evs6 ++ [.rpmCheck] else evs6) ++
        [.rpmRun (commit_problems_filter ctx flags) true])
  else
    commit_real_tail ctx o
      ((if ctx.checkTransaction then evs6 ++ [.rpmCheck] else evs6) ++
        [.rpmRun (commit_problems_filter ctx flags) false])

/-- `hif_transaction_commit`: the seven-phase pipeline — lock, keys,
trust check, add installs, add removes (with cleanup relabelling), build
the remove-helper and erased hash, order, then the test/run tail.  There
is no free-space check anywhere on this path. -/
def hif_transaction_commit (ctx : CommitCtx) (flags : Nat) (g : CommitGoal)
    (attrs : Nat → PkgAttr) (act0 : Nat → StateAction) (o : CommitOracle) :
    Except HifError Unit × List CommitEvent :=
  if ¬ o.takeLockOk then (.error .internalError, [])
  else
    let evs0 := [CommitEvent.takeLock]
    if ¬ o.importKeysOk then (.error .failed, evs0)
    else
      let evs1 := evs0 ++ [.importKeys]
      if ¬ o.untrustedOk then (.error .gpgSignatureInvalid, evs1)
      else
        let evs2 := evs1 ++ [.checkUntrusted]
        if ¬ o.setRootOk then (.error .internalError, evs2)
        else
          let evs3 := evs2 ++ [.setRoot]
          let instOut := commit_install_loop o flags act0 g.installL evs3
          if instOut.1.isSome then (.error (instOut.1.getD .failed), instOut.2)
          else
            let remOut := commit_remove_loop o g.installL attrs g.removeL act0 instOut.2
            if remOut.1.isSome then (.error (remOut.1.getD .failed), remOut.2.2)
            else
              if (commit_remove_helper g.obsoletedBy g.installL remOut.2.1).isNone then
                (.error .internalError, remOut.2.2)
              else
                if (commit_erased_hash g attrs
                    ((commit_remove_helper g.obsoletedBy g.installL
                      remOut.2.1).getD ([], remOut.2.1)).2).isNone then
                  (.error .internalError, remOut.2.2)
                else
                  commit_run_phase ctx flags o (remOut.2.2 ++ [.rpmOrder])

/-- `hif_transaction_check_free_space`: total download size of the
pending downloads against the filesystem free bytes at the cache dir. -/
def hif_transaction_check_free_space (ctx : CommitCtx) (pkgsToDownload : List Nat)
    (attrs : Nat → PkgAttr) : Option HifError :=
  let downloadSize := (pkgsToDownload.map (fun p => (attrs p).size)).sum
  match ctx.cacheDir with
  | none => some .failedConfigParsing
  | some _ =>
    match ctx.freeSpace with
    | none => some .failed
    | some free => if free < downloadSize then some .noSpace else none

/-- `hif_transaction_download`: the free-space check runs first, then the
package list is handed to the external downloader. -/
def hif_transaction_download (ctx : CommitCtx) (pkgsToDownload : List Nat)
    (attrs : Nat → PkgAttr) (downloadOk : Bool) :
    Option HifError × List CommitEvent :=
  match hif_transaction_check_free_space ctx pkgsToDownload attrs with
  | some e => (some e, [CommitEvent.checkFreeSpace])
  | none =>
    if downloadOk then (none, [CommitEvent.checkFreeSpace])
    else (some .failed, [CommitEvent.checkFreeSpace])

/-! ## Reason database (hif-db.c) -/

/-- The filesystem-backed store: file contents by path, plus the set of
directories. -/
structure Fs where
  files : List (String × String) := []
  dirs : List String := []
  deriving DecidableEq

/-- Look up the contents stored at a path. -/
def fsGet (fs : Fs) (path : String) : Option String :=
  (fs.files.find? (fun e => e.1 = path)).map (fun e => e.2)

/-- Write contents at a path, replacing any previous entry. -/
def fsSet (fs : Fs) (path contents : String) : Fs :=
  { fs with files := (fs.files.filter (fun e => e.1 ≠ path)) ++ [(path, contents)] }

/-- Delete the entry at a path. -/
def fsDeleteFile (fs : Fs) (path : String) : Fs :=
  { fs with files := fs.files.filter (fun e => e.1 ≠ path) }

/-- The package attributes hif-db reads. -/
structure DbPackage where
  pkgid : Option String := none
  pname : String := "a"
  version : String := "1"
  release : String := "1"
  arch : String := "noarch"
  packageId : String := ""
  deriving DecidableEq

/-- The db handle: the enabled bit and the install root read from the
context. -/
structure HifDb where
  enabled : Bool := true
  installRoot : String := "/"
  deriving DecidableEq

/-- `hif_db_set_enabled`. -/
def hif_db_set_enabled (db : HifDb) (enabled : Bool) : HifDb :=
  { db with enabled := enabled }

/-- `hif_db_get_dir_for_package`: NULL when the package has no pkgid,
otherwise the per-package yumdb directory path. -/
def hif_db_get_dir_for_package (db : HifDb) (pkg : DbPackage) : Option String :=
  match pkg.pkgid with
  | none => none
  | some pkgid =>
    let instroot := if db.installRoot = "/" then "" else db.installRoot
    some (instroot ++ "/var/lib/yum/yumdb/" ++ String.singleton pkg.pname.front ++
      "/" ++ pkgid ++ "-" ++ pkg.pname ++ "-" ++ pkg.version ++ "-" ++
      pkg.release ++ "-" ++ pkg.arch)

/-- `hif_db_get_string`: read the per-package key file (no enabled
check on the read path). -/
def hif_db_get_string (db : HifDb) (fs : Fs) (pkg : DbPackage) (key : String) :
    Option String × Option HifError :=
  match hif_db_get_dir_for_package db pkg with
  | none => (none, some .failed)
  | some dir =>
    let filename := dir ++ "/" ++ key
    match fsGet fs filename with
    | none => (none, some .failed)
    | some v => (some v, none)

/-- `hif_db_set_string`: a no-op success when the db is disabled;
otherwise create the index directory and write the key file.  Returns the
success bit, the updated store and the error. -/
def hif_db_set_string (db : HifDb) (fs : Fs) (pkg : DbPackage) (key value : String) :
    Bool × Fs × Option HifError :=
  if ¬ db.enabled then (true, fs, none)
  else
    match hif_db_get_dir_for_package db pkg with
    | none => (false, fs, some .failed)
    | some dir =>
      let fs1 := if dir ∈ fs.dirs then fs else { fs with dirs := fs.dirs ++ [dir] }
      let indexFile := dir ++ "/" ++ key
      (true, fsSet fs1 indexFile value, none)

/-- `hif_db_remove`: a no-op success when the db is disabled; otherwise
delete the key file (a missing file is a delete error). -/
def hif_db_remove (db : HifDb) (fs : Fs) (pkg : DbPackage) (key : String) :
    Bool × Fs × Option HifError :=
  if ¬ db.enabled then (true, fs, none)
  else
    match hif_db_get_dir_for_package db pkg with
    | none => (false, fs, some .failed)
    | some dir =>
      let indexFile := dir ++ "/" ++ key
      match fsGet fs indexFile with
      | none => (false, fs, some .failed)
      | some _ => (true, fsDeleteFile fs indexFile, none)

/-- `hif_db_remove_all`: a no-op success when the db is disabled;
otherwise delete every file of the per-package directory (ignoring
per-file errors) and then the directory itself. -/
def hif_db_remove_all (db : HifDb) (fs : Fs) (pkg : DbPackage) :
    Bool × Fs × Option HifError :=
  if ¬ db.enabled then (true, fs, none)
  else
    match hif_db_get_dir_for_package db pkg with
    | none => (false, fs, some .failed)
    | some dir =>
      if dir ∉ fs.dirs then (true, fs, none)
      else
        let fs1 := { fs with
          files := fs.files.filter (fun e => ¬ (dir ++ "/").isPrefixOf e.1) }
        (true, { fs1 with dirs := fs1.dirs.filter (fun d => d ≠ dir) }, none)

/-! ## Spec-side definitions (claim wording, for comparison with the code) -/

/-- The filter-update step exactly as claim C3 words it: compute a
per-filter bitmap `m`, subtract when the `NOT` bit is set, intersect
otherwise. -/
def apply_filter_step_spec (pool : QPool) (cur : Finset Nat) (f : QFilter) : Finset Nat :=
  let m := filter_bitmap pool cur f
  if f.cmp.negated then cur \ m else cur ∩ m

/-- Claim C3 as worded: initialise to all package-kind solvables
intersected with the considered bitmap (all packages when unset), skip
the intersection under `IGNORE_EXCLUDES`, then fold the staged filters
in insertion order. -/
def hy_query_apply_spec (pool : QPool) (q : HyQuery) : Finset Nat :=
  let base :=
    if q.ignoreExcludes then pool.pkgSolvables
    else pool.pkgSolvables ∩ pool.considered.getD (Finset.range pool.nsolvables)
  q.filters.foldl (apply_filter_step_spec pool) base

/-- The filter staged by `hy_query_filter_empty`. -/
def empty_filter : QFilter :=
  { keyname := .all, cmp := { eq := true }, fmatches := [QMatch.num (-1)] }

/-- Claim C2 as worded: sort by name, kernel-related entries pushed to
the end, then descending evr. -/
def sort_packages_spec (pool : GPool) (kernel : Int) (a b : Nat) : Int :=
  let sa := pool.solv a
  let sb := pool.solv b
  let nameDiff : Int := (sa.name : Int) - (sb.name : Int)
  if nameDiff ≠ 0 then nameDiff
  else if 0 ≤ kernel ∧ ((a : Int) = kernel ∨ can_depend_on pool sa kernel.toNat) then 1
  else if 0 ≤ kernel ∧ ((b : Int) = kernel ∨ can_depend_on pool sb kernel.toNat) then -1
  else gpool_evrcmp pool sb.evr sa.evr

/-- Consecutive same-name groups read from the front of the sorted
order (fuel-bounded helper). -/
def same_name_groups_spec_go (pool : GPool) : Nat → List Nat → List (List Nat)
  | 0, _ => []
  | fuel + 1, lst =>
    match lst with
    | [] => []
    | x :: rest =>
      let nm := (pool.solv x).name
      (x :: rest.takeWhile (fun p => (pool.solv p).name = nm)) ::
        same_name_groups_spec_go pool fuel (rest.dropWhile (fun p => (pool.solv p).name = nm))

/-- Consecutive same-name groups read from the front of the sorted
order, as claim C2 words the subqueue partition. -/
def same_name_groups_spec (pool : GPool) (lst : List Nat) : List (List Nat) :=
  same_name_groups_spec_go pool lst.length lst

/-- The INSTALL/ERASE marking of one subqueue: INSTALL for the first
`limit` entries, ERASE for the remainder. -/
def installonly_mark (limit : Nat) (sub : List Nat) : List (Nat × Nat) :=
  sub.enum.map (fun ji =>
    ((if ji.1 < limit then SOLVER_INSTALL else SOLVER_ERASE) ||| SOLVER_SOLVABLE, ji.2))

/-- Claim C2 as worded, end to end: sort the solver-decided providers
with the spec comparator, partition into front-to-back name groups, and
mark each group longer than the limit. -/
def limit_installonly_packages_spec (sack : SackModel) (pool : GPool)
    (o : SolverOracle) (job : List (Nat × Nat)) : List (Nat × Nat) × Bool :=
  if sack.installonlyLimit = 0 then (job, false)
  else
    sack.installonly.foldl
      (fun acc dep =>
        let q := (pool.pkgProvidersOf dep).filter (fun p => o.declevel p > 0)
        if q.length ≤ sack.installonlyLimit then acc
        else
          let sorted := solv_sort q (sort_packages_spec pool sack.runningKernel)
          let groups := (same_name_groups_spec pool sorted).filter
            (fun sub => ¬ sub.length ≤ sack.installonlyLimit)
          (acc.1 ++ (groups.map (installonly_mark sack.installonlyLimit)).flatten,
            acc.2 ∨ !groups.isEmpty))
      (job, false)

/-! ## Concrete fixtures -/

/-- Query fixture for C4: three package solvables, ids 1 and 3 share a
name but are separated by id 2 of another name. -/
def qpool4 : QPool :=
  { nsolvables := 4
    solv := fun i =>
      if i = 1 then { name := 0, evr := 1 }
      else if i = 2 then { name := 1, evr := 1 }
      else if i = 3 then { name := 0, evr := 2 }
      else {}
    pkgSolvables := {1, 2, 3} }

/-- A fresh query with only the latest modifier set. -/
def q_latest : HyQuery := { latest := true }

/-- A tiny pool for the query-state counterexamples. -/
def qpool1 : QPool := { nsolvables := 2, solv := fun _ => {}, pkgSolvables := {1} }

/-- An already-applied query holding result `{1}`. -/
def q_applied_one : HyQuery := { applied := true, result := some {1} }

/-- Query fixture for the C3 witness: considered bitmap `{1, 2}` and two
packageset filters, one of them negated. -/
def qpoolW : QPool :=
  { nsolvables := 4
    solv := fun _ => {}
    pkgSolvables := {1, 2, 3}
    considered := some {1, 2} }

/-- The C3 witness query: one AND packageset filter and one NOT filter. -/
def qW : HyQuery :=
  { filters :=
      [{ keyname := .pkg, cmp := { eq := true }, fmatches := [QMatch.pset {1, 3}] },
       { keyname := .pkg, cmp := { eq := true, negated := true },
         fmatches := [QMatch.pset {3}] }] }

/-- Goal fixture for C1: solvables 1 and 2 named p0 and p1. -/
def gpool1 : GPool :=
  { nsolvables := 3
    solv := fun i => if i = 1 then { name := 1 } else if i = 2 then { name := 2 } else {}
    nameStrOf := fun n => if n = 1 then "p0" else if n = 2 then "p1" else "" }

/-- C1 goal: both solvables protected. -/
def goal1 : GoalSt := { protectedIds := some {1, 2} }

/-- C1 solver oracle: the solve succeeds, no solver problems, and the
transaction removes solvables 1 and 2. -/
def oracle1 : SolverOracle :=
  { transSteps := fun _ => [(1, .removeK), (2, .removeK)] }

/-- An empty sack policy. -/
def sack0 : SackModel := {}

/-- The C1 solve outcome. -/
def c1out : SolveOutcome := solve gpool1 sack0 goal1 [] oracle1

/-- Goal fixture for C2: three providers of the install-only dep 100,
sharing name 5; evr order 3 < 1 < 2; solvable 3 is the running kernel. -/
def gpool2 : GPool :=
  { nsolvables := 4
    solv := fun i =>
      if i = 1 then { name := 5, evr := 1 }
      else if i = 2 then { name := 5, evr := 2 }
      else if i = 3 then { name := 5, evr := 3 }
      else {}
    evrValue := fun e => if e = 1 then 10 else if e = 2 then 20 else if e = 3 then 5 else 0
    pkgProvidersOf := fun d => if d = 100 then [1, 2, 3] else [] }

/-- C2 sack: one install-only name with limit 1 and kernel 3 running. -/
def sack2 : SackModel := { installonly := [100], installonlyLimit := 1, runningKernel := 3 }

/-- C2 solver oracle: every provider is decided. -/
def oracle2 : SolverOracle := { declevel := fun _ => 1 }

/-- An empty selector pool. -/
def selpool0 : SelPool := {}

/-- A selector with no axis at all. -/
def sltr_empty : HySelector := {}

/-- A selector with only the optional arch axis. -/
def sltr_arch_only : HySelector := { f_arch := some { str := "x86_64" } }

/-- C6 fixture: the obsoleted-by list of install 10 is `[20, 21]`. -/
def obsoletedBy6 : Nat → List Nat := fun p => if p = 10 then [20, 21] else []

/-- C6 fixture: install 10 is an update, everything else a plain install. -/
def act6 : Nat → StateAction := fun p => if p = 10 then .updateA else .installA

/-- C7 fixture: a cache dir with no free space at all. -/
def ctx7 : CommitCtx := { cacheDir := some "/var/cache/yum", freeSpace := some 0 }

/-- C7 fixture: one install which is also the single pending download. -/
def goal7 : CommitGoal := { installL := [1], pkgsToDownload := [1] }

/-- C7 fixture: the package needs 100 bytes of download. -/
def attrs7 : Nat → PkgAttr :=
  fun p => if p = 1 then
    { pname := "foo", filename := "/var/cache/yum/foo.rpm", size := 100,
      packageId := "foo;1;1;x86_64" }
  else {}

/-- C7 fixture: plain installs. -/
def act7 : Nat → StateAction := fun _ => .installA

/-- C7 fixture: every external rpm call succeeds. -/
def oracle7 : CommitOracle := {}

/-- The C7 commit run. -/
def c7out : Except HifError Unit × List CommitEvent :=
  hif_transaction_commit ctx7 0 goal7 attrs7 act7 oracle7

/-- C10 fixture: a disabled db. -/
def db0 : HifDb := { enabled := false }

/-- C10 fixture: a store with one pre-existing file. -/
def fs0 : Fs := { files := [("/var/lib/yum/yumdb/a/x-a-1-1-noarch/reason", "user")],
                  dirs := ["/var/lib/yum/yumdb/a/x-a-1-1-noarch"] }

/-- C10 fixture: a package with a pkgid. -/
def pkg0 : DbPackage := { pkgid := some "x" }

/-! ## Helper lemmas -/

theorem hy_query_apply_of_applied (pool : QPool) (q : HyQuery) (h : q.applied = true) :
    hy_query_apply pool q = q := by
  unfold hy_query_apply
  simp [h]

theorem hy_query_apply_applied_bit (pool : QPool) (q : HyQuery) :
    (hy_query_apply pool q).applied = true := by
  unfold hy_query_apply
  by_cases h : q.applied = true <;> simp [h]

theorem apply_filter_step_of_empty (pool : QPool) (f : QFilter) :
    apply_filter_step pool ∅ f = ∅ := by
  unfold apply_filter_step
  by_cases h : f.cmp.negated = true <;> simp [h]

theorem foldl_apply_filter_step_empty (pool : QPool) (fs : List QFilter) :
    fs.foldl (apply_filter_step pool) ∅ = ∅ := by
  induction fs with
  | nil => rfl
  | cons f rest ih => simp [List.foldl_cons, apply_filter_step_of_empty, ih]

theorem apply_filter_step_empty_filter (pool : QPool) (cur : Finset Nat) :
    apply_filter_step pool cur empty_filter = ∅ := by
  unfold apply_filter_step empty_filter filter_bitmap filter_all
  simp

theorem foldl_apply_with_empty_filter (pool : QPool) (fs : List QFilter)
    (cur : Finset Nat) (h : empty_filter ∈ fs) :
    fs.foldl (apply_filter_step pool) cur = ∅ := by
  induction fs generalizing cur with
  | nil => cases h
  | cons f rest ih =>
    rcases List.mem_cons.mp h with hf | hrest
    · subst hf
      simp [List.foldl_cons, apply_filter_step_empty_filter,
        foldl_apply_filter_step_empty]
    · simp only [List.foldl_cons]
      exact ih _ hrest

theorem hy_query_union_result (pool : QPool) (q other : HyQuery) :
    (hy_query_union pool q other).result =
      some ((hy_query_apply pool q).result.getD ∅ ∪
        (hy_query_apply pool other).result.getD ∅) := by
  simp [hy_query_union]

theorem hy_query_intersection_result (pool : QPool) (q other : HyQuery) :
    (hy_query_intersection pool q other).result =
      some ((hy_query_apply pool q).result.getD ∅ ∩
        (hy_query_apply pool other).result.getD ∅) := by
  simp [hy_query_intersection]

theorem hy_query_difference_result (pool : QPool) (q other : HyQuery) :
    (hy_query_difference pool q other).result =
      some ((hy_query_apply pool q).result.getD ∅ \
        (hy_query_apply pool other).result.getD ∅) := by
  simp [hy_query_difference]

theorem hy_query_apply_union (pool : QPool) (a b : HyQuery) :
    hy_query_apply pool (hy_query_union pool a b) = hy_query_union pool a b :=
  hy_query_apply_of_applied pool _ (by simp [hy_query_union, hy_query_apply_applied_bit])

theorem hy_query_apply_difference (pool : QPool) (a b : HyQuery) :
    hy_query_apply pool (hy_query_difference pool a b) = hy_query_difference pool a b :=
  hy_query_apply_of_applied pool _
    (by simp [hy_query_difference, hy_query_apply_applied_bit])

theorem filter_updown_of_empty (pool : QPool) (d : Bool) :
    filter_updown pool d ∅ = ∅ := by
  unfold filter_updown
  simp

theorem filter_updown_able_of_empty (pool : QPool) (d : Bool) :
    filter_updown_able pool d ∅ = ∅ := by
  unfold filter_updown_able
  simp

theorem filter_latest_of_empty (pool : QPool) (perArch : Bool) :
    filter_latest pool perArch ∅ = ∅ := by
  unfold filter_latest
  simp

/-! ## Claim theorems for the query engine -/

/-- C3: for a fresh query (no result bitmap yet, applied bit clear, no
modifiers), `apply()` initialises the result to all package-kind
solvables intersected with the considered bitmap — skipping the
intersection under `IGNORE_EXCLUDES` — and then folds every staged
filter in insertion order, subtracting the per-filter bitmap when the
`NOT` bit is set and intersecting otherwise. -/
theorem hy_query_apply_spec_conformance (pool : QPool) (q : HyQuery)
    (hsub : pool.pkgSolvables ⊆ Finset.range pool.nsolvables)
    (happ : q.applied = false) (hres : q.result = none)
    (hm1 : q.downgradable = false) (hm2 : q.downgrades = false)
    (hm3 : q.updatable = false) (hm4 : q.updates = false)
    (hm5 : q.latest = false) :
    (hy_query_apply pool q).result = some (hy_query_apply_spec pool q) := by
  have hstep : apply_filter_step_spec = apply_filter_step := rfl
  unfold hy_query_apply hy_query_apply_spec init_result
  rw [hstep]
  simp only [happ, hres, hm1, hm2, hm3, hm4, hm5]
  simp only [Bool.false_eq_true, if_false]
  by_cases hex : q.ignoreExcludes = true
  · simp [hex]
  · simp only [Bool.not_eq_true] at hex
    simp only [hex, Bool.false_eq_true, if_false]
    cases hcons : pool.considered with
    | none =>
      simp [Option.getD, Finset.inter_eq_left.mpr hsub]
    | some c =>
      simp [Option.getD]

/-- C3 witness: the conformance theorem applied to the concrete pool
with considered set `{1, 2}` and an AND plus a NOT packageset filter;
both sides evaluate to `{1}`. -/
theorem hy_query_apply_spec_conformance_witness :
    (hy_query_apply qpoolW qW).result = some (hy_query_apply_spec qpoolW qW) ∧
    (hy_query_apply qpoolW qW).result = some {1} :=
  ⟨hy_query_apply_spec_conformance qpoolW qW (by decide) rfl rfl rfl rfl rfl rfl rfl,
   by decide⟩

/-- C4: the latest modifier bug.  In the pool where solvables 1 and 3
share a name (split by id 2 of another name), the applied result keeps
all three solvables — two of the same name — because the non-per-arch
comparator reads both solvables from the same pointer and degenerates to
id order, so the claim that exactly one solvable per distinct name
survives is false on the code. -/
theorem filter_latest_duplicate_name_bug :
    (hy_query_apply qpool4 q_latest).result = some {1, 2, 3} ∧
    (qpool4.solv 1).name = (qpool4.solv 3).name ∧
    (1 : Nat) ≠ 3 ∧
    (qpool4.solv 1).name ≠ (qpool4.solv 2).name ∧
    pool_evrcmp qpool4 (qpool4.solv 3).evr (qpool4.solv 1).evr > 0 := by
  refine ⟨by decide, by decide, by decide, by decide, by decide⟩

/-- C8: the result-bitmap set algebra of applied queries — union is
commutative and associative, intersection equals double difference, and
self-difference is empty. -/
theorem hy_query_set_algebra (pool : QPool) (a b c : HyQuery) :
    (hy_query_union pool a b).result = (hy_query_union pool b a).result ∧
    (hy_query_union pool (hy_query_union pool a b) c).result =
      (hy_query_union pool a (hy_query_union pool b c)).result ∧
    (hy_query_intersection pool a b).result =
      (hy_query_difference pool a (hy_query_difference pool a b)).result ∧
    (hy_query_difference pool a a).result = some ∅ := by
  refine ⟨?_, ?_, ?_, ?_⟩
  · simp [hy_query_union, Finset.union_comm]
  · simp only [hy_query_union_result, hy_query_apply_union, Option.getD_some]
    exact congrArg some (Finset.union_assoc _ _ _)
  · simp only [hy_query_intersection_result, hy_query_difference_result,
      hy_query_apply_difference, Option.getD_some]
    exact congrArg some (Finset.sdiff_sdiff_self_left _ _).symm
  · simp [hy_query_difference]

/-- C9 counterexample: staging `filter_empty()` does not clear the
applied bit, so on an already-applied query a further `apply()` is a
no-op and the result stays `{1}`, not empty. -/
theorem filter_empty_applied_counterexample :
    (hy_query_apply qpool1 (hy_query_filter_empty q_applied_one)).result = some {1} ∧
    some ({1} : Finset Nat) ≠ some (∅ : Finset Nat) := by
  refine ⟨by decide, by decide⟩

/-- C9 amended: on a query whose applied bit is clear, once the
`filter_empty()` filter is among the staged filters the applied result
is empty, whatever other filters come before or after. -/
theorem filter_empty_amended (pool : QPool) (q : HyQuery)
    (happ : q.applied = false) (hmem : empty_filter ∈ q.filters) :
    (hy_query_apply pool q).result = some ∅ := by
  unfold hy_query_apply
  simp only [happ, Bool.false_eq_true, if_false]
  rw [foldl_apply_with_empty_filter pool q.filters _ hmem]
  by_cases h1 : q.downgradable = true <;>
    by_cases h2 : q.downgrades = true <;>
      by_cases h3 : q.updatable = true <;>
        by_cases h4 : q.updates = true <;>
          by_cases h5 : q.latest = true <;>
            simp [h1, h2, h3, h4, h5, filter_updown_of_empty,
              filter_updown_able_of_empty, filter_latest_of_empty]

/-- C9 witness: the amended theorem applied to a fresh query that staged
a packageset filter and then `filter_empty()`. -/
theorem filter_empty_amended_witness :
    (hy_query_apply qpool1 (hy_query_filter_empty
      { filters := [{ keyname := .pkg, cmp := { eq := true },
                      fmatches := [QMatch.pset {1}] }] })).result = some ∅ :=
  filter_empty_amended qpool1 _ rfl (by decide)

/-! ## Claim theorems for the goal engine -/

/-- C1: the protected-removal path.  With protected solvables 1 (p0) and
2 (p1) both removed by the transaction, `run` returns non-zero and the
problem count is the solver count plus one — but the goal keeps the
transaction instead of discarding it, and the synthetic problem string
is built by indexing the removal list with the problem index `i` on
every loop iteration, so it reads "p0, p0" and never names p1. -/
theorem hy_goal_protected_removal_describe_bug :
    c1out.ret = 1 ∧
    c1out.goal.trans ≠ none ∧
    (2 : Nat) ∈ c1out.goal.removalOfProtected ∧
    hy_goal_count_problems c1out.goal = oracle1.problems.length + 1 ∧
    hy_goal_describe_problem gpool1 c1out.goal 0 =
      some "The operation would result in removing the following protected packages: p0, p0" ∧
    ¬ ((gpool1.nameStrOf (gpool1.solv 2).name).data <:+:
      ("The operation would result in removing the following protected packages: p0, p0").data) := by
  refine ⟨by decide, by decide, by decide, by decide, by decide, ?_⟩
  set_option maxRecDepth 4000 in decide

/-- C2 counterexample: on three same-name providers with limit 1 and
running kernel 3 (the lowest evr), the code installs the kernel and
erases the other two, while the order the claim words — kernel pushed to
the end, descending evr, INSTALL for the first `limit` of each
subqueue — would erase the kernel; the two job sequences differ. -/
theorem limit_installonly_order_counterexample :
    limit_installonly_packages sack2 gpool2 oracle2 [] =
      ([(SOLVER_INSTALL ||| SOLVER_SOLVABLE, 3), (SOLVER_ERASE ||| SOLVER_SOLVABLE, 2),
        (SOLVER_ERASE ||| SOLVER_SOLVABLE, 1)], true) ∧
    limit_installonly_packages_spec sack2 gpool2 oracle2 [] =
      ([(SOLVER_INSTALL ||| SOLVER_SOLVABLE, 2), (SOLVER_ERASE ||| SOLVER_SOLVABLE, 1),
        (SOLVER_ERASE ||| SOLVER_SOLVABLE, 3)], true) ∧
    (limit_installonly_packages sack2 gpool2 oracle2 []).1 ≠
      (limit_installonly_packages_spec sack2 gpool2 oracle2 []).1 ∧
    sack2.runningKernel = 3 ∧
    (SOLVER_ERASE ||| SOLVER_SOLVABLE, 3) ∈
      (limit_installonly_packages_spec sack2 gpool2 oracle2 []).1 ∧
    (SOLVER_INSTALL ||| SOLVER_SOLVABLE, 3) ∈
      (limit_installonly_packages sack2 gpool2 oracle2 []).1 := by
  refine ⟨by decide, by decide, by decide, by decide, by decide, by decide⟩

theorem installonly_subqueue_jobs_go_eq (pool : GPool) (limit : Nat) :
    ∀ (fuel : Nat) (lst : List Nat), lst.length ≤ fuel →
    installonly_subqueue_jobs_go pool limit fuel lst =
      ((((same_name_subqueues_go pool fuel lst).filter
          (fun sub => limit < sub.length)).map (installonly_mark limit)).flatten,
        (same_name_subqueues_go pool fuel lst).any (fun sub => limit < sub.length)) := by
  intro fuel
  induction fuel with
  | zero =>
    intro lst _
    simp [installonly_subqueue_jobs_go, same_name_subqueues_go]
  | succ fuel ih =>
    intro lst hlen
    by_cases hnil : lst = []
    · subst hnil
      simp [installonly_subqueue_jobs_go, same_name_subqueues_go]
    · have hrest : (same_name_subqueue pool lst).2.length ≤ fuel := by
        have := same_name_subqueue_rest_lt pool lst hnil
        omega
      have ihr := ih (same_name_subqueue pool lst).2 hrest
      by_cases hlim : (same_name_subqueue pool lst).1.length ≤ limit
      · have hdrop : decide (limit < (same_name_subqueue pool lst).1.length) = false := by
          simpa using Nat.not_lt.mpr hlim
        simp [installonly_subqueue_jobs_go, same_name_subqueues_go, hnil, hlim,
          ihr, List.filter_cons, hdrop]
      · have hkeep : decide (limit < (same_name_subqueue pool lst).1.length) = true := by
          simpa using Nat.lt_of_not_le hlim
        simp [installonly_subqueue_jobs_go, same_name_subqueues_go, hnil, hlim,
          ihr, List.filter_cons, hkeep, installonly_mark]

/-- C2 amended: (1) the emitted jobs are exactly the INSTALL-prefix /
ERASE-suffix marking of every same-name subqueue longer than the limit,
where the subqueues are extracted from the tail of the sorted queue
(hence kernel-related entries first, then descending evr), and a
re-solve is requested exactly when some subqueue was marked; (2) among
same-name providers the comparator sorts a kernel-related entry after
every unrelated one, i.e. to the end of the ascending array; (3) the
solver is re-invoked at most once, and a failure of that single
re-solve is returned. -/
theorem limit_installonly_amended :
    (∀ (pool : GPool) (limit : Nat) (lst : List Nat),
      installonly_subqueue_jobs pool limit lst =
        ((((same_name_subqueues pool lst).filter
            (fun sub => limit < sub.length)).map (installonly_mark limit)).flatten,
          (same_name_subqueues pool lst).any (fun sub => limit < sub.length))) ∧
    (∀ (pool : GPool) (kernel : Int) (a b : Nat),
      (pool.solv a).name = (pool.solv b).name →
      0 ≤ kernel →
      ((b : Int) = kernel ∨ can_depend_on pool (pool.solv b) kernel.toNat = true) →
      ¬ ((a : Int) = kernel ∨ can_depend_on pool (pool.solv a) kernel.toNat = true) →
      sort_packages pool kernel a b = -1) ∧
    (∀ (pool : GPool) (sack : SackModel) (g : GoalSt) (job : List (Nat × Nat))
        (o : SolverOracle),
      (solve pool sack g job o).solverCalls ≤ 2 ∧
      (o.solveFailed job = false →
       (limit_installonly_packages sack pool o job).2 = true →
       o.solveFailed (allow_uninstall_all_but_protected pool sack.runningKernel
           { g with trans := none, solvProblems := o.problems }
           (limit_installonly_packages sack pool o job).1 true).2 = true →
       (solve pool sack g job o).ret = 1 ∧
         (solve pool sack g job o).solverCalls = 2)) := by
  refine ⟨?_, ?_, ?_⟩
  · intro pool limit lst
    exact installonly_subqueue_jobs_go_eq pool limit lst.length lst (le_refl _)
  · intro pool kernel a b hname hk hb ha
    unfold sort_packages
    have hdiff : ((pool.solv a).name : Int) - ((pool.solv b).name : Int) = 0 := by
      rw [hname]; ring
    simp only [hdiff, ne_eq, not_true_eq_false, if_false]
    rw [if_neg, if_pos ⟨hk, hb⟩]
    intro hcon
    exact ha hcon.2
  · intro pool sack g job o
    constructor
    · unfold solve
      by_cases h1 : o.solveFailed job = true
      · simp [h1]
      · simp only [h1, Bool.false_eq_true, if_false]
        by_cases h2 : (limit_installonly_packages sack pool o job).2 = true
        · simp only [h2, if_true]
          by_cases h3 : o.solveFailed (allow_uninstall_all_but_protected pool
              sack.runningKernel { g with trans := none, solvProblems := o.problems }
              (limit_installonly_packages sack pool o job).1 true).2 = true
          · simp [h3]
          · simp [h3]
        · simp [h2]
    · intro h1 h2 h3
      unfold solve
      simp [h1, h2, h3]

/-- C2 witness: the comparator conclusion at the concrete kernel pool
(entry 1 sorts before the kernel 3) and the call bound at the concrete
re-solve fixture. -/
theorem limit_installonly_amended_witness :
    sort_packages gpool2 3 1 3 = -1 ∧
    (solve gpool2 sack2 goal1 [] oracle2).solverCalls ≤ 2 ∧
    installonly_subqueue_jobs gpool2 1 [1, 2, 3] =
      ((((same_name_subqueues gpool2 [1, 2, 3]).filter
          (fun sub => 1 < sub.length)).map (installonly_mark 1)).flatten,
        (same_name_subqueues gpool2 [1, 2, 3]).any (fun sub => 1 < sub.length)) := by
  refine ⟨?_, ?_, ?_⟩
  · exact limit_installonly_amended.2.1 gpool2 3 1 3 (by decide) (by decide)
      (by decide) (by decide)
  · exact (limit_installonly_amended.2.2 gpool2 sack2 goal1 [] oracle2).1
  · exact limit_installonly_amended.1 gpool2 1 [1, 2, 3]

/-- C5 counterexample: a selector with no axis at all translates to a
success with no job entries, not to `BadSelector`. -/
theorem sltr2job_empty_selector_counterexample :
    sltr2job selpool0 sltr_empty SOLVER_INSTALL = (none, []) ∧
    (none : Option HifError) ≠ some HifError.badSelector := by
  refine ⟨by decide, by decide⟩

/-- C5 amended: when none of the name/provides/file axes is set, no job
entry is pushed, and `BadSelector` is returned exactly when some
optional axis (arch, evr or reponame) is set; a fully empty selector
succeeds. -/
theorem sltr2job_no_required_axes_amended (pool : SelPool) (sltr : HySelector)
    (action : Nat) (h1 : sltr.f_name = none) (h2 : sltr.f_provides = none)
    (h3 : sltr.f_file = none) :
    sltr2job pool sltr action =
      (if sltr.f_arch.isSome || sltr.f_evr.isSome || sltr.f_reponame.isSome
       then (some HifError.badSelector, []) else (none, [])) := by
  unfold sltr2job
  simp [h1, h2, h3]

/-- C5 witness: the amended theorem at a selector with only the arch
axis set (BadSelector, no jobs) and at the fully empty selector
(success, no jobs). -/
theorem sltr2job_no_required_axes_witness :
    sltr2job selpool0 sltr_arch_only 0 = (some HifError.badSelector, []) ∧
    sltr2job selpool0 sltr_empty 0 = (none, []) := by
  constructor
  · have h := sltr2job_no_required_axes_amended selpool0 sltr_arch_only 0 rfl rfl rfl
    simpa using h
  · have h := sltr2job_no_required_axes_amended selpool0 sltr_empty 0 rfl rfl rfl
    simpa using h

/-! ## Claim theorems for the transaction driver -/

/-- C6: the remove-helper construction bug.  Install 10 is an update
obsoleting packages 20 and 21; because the inner loop indexes the
obsoleted list with the outer install index, package 20 is appended
twice to the helper list while 21 is never appended and never relabelled
`CLEANUP`. -/
theorem commit_remove_helper_index_bug :
    (commit_remove_helper obsoletedBy6 [10] act6).map (fun ha => ha.1) =
      some [20, 20] ∧
    (commit_remove_helper obsoletedBy6 [10] act6).map (fun ha => ha.2 21) =
      some StateAction.installA ∧
    (commit_remove_helper obsoletedBy6 [10] act6).map (fun ha => ha.2 20) =
      some StateAction.cleanupA ∧
    (21 : Nat) ∈ obsoletedBy6 10 ∧
    (21 : Nat) ∉ [20, 20] := by
  refine ⟨by decide, by decide, by decide, by decide, by decide⟩

theorem commit_install_loop_no_fsc (o : CommitOracle) (flags : Nat)
    (act : Nat → StateAction) :
    ∀ (l : List Nat) (evs : List CommitEvent), CommitEvent.checkFreeSpace ∉ evs →
    CommitEvent.checkFreeSpace ∉ (commit_install_loop o flags act l evs).2 := by
  intro l
  induction l with
  | nil =>
    intro evs h
    simpa [commit_install_loop] using h
  | cons p rest ih =>
    intro evs h
    unfold commit_install_loop
    split_ifs <;>
      first
        | simpa using h
        | exact ih _ (by simp [List.mem_append, h])

theorem commit_remove_loop_no_fsc (o : CommitOracle) (installL : List Nat)
    (attrs : Nat → PkgAttr) :
    ∀ (l : List Nat) (act : Nat → StateAction) (evs : List CommitEvent),
    CommitEvent.checkFreeSpace ∉ evs →
    CommitEvent.checkFreeSpace ∉ (commit_remove_loop o installL attrs l act evs).2.2 := by
  intro l
  induction l with
  | nil =>
    intro act evs h
    simpa [commit_remove_loop] using h
  | cons p rest ih =>
    intro act evs h
    unfold commit_remove_loop
    split_ifs <;>
      first
        | simpa using h
        | exact ih _ _ (by simp [List.mem_append, h])

theorem commit_install_loop_err (o : CommitOracle) (flags : Nat)
    (act : Nat → StateAction) :
    ∀ (l : List Nat) (evs : List CommitEvent),
    (commit_install_loop o flags act l evs).1 ≠ some HifError.noSpace := by
  intro l
  induction l with
  | nil =>
    intro evs
    simp [commit_install_loop]
  | cons p rest ih =>
    intro evs
    unfold commit_install_loop
    split_ifs <;> simp [ih]

theorem commit_remove_loop_err (o : CommitOracle) (installL : List Nat)
    (attrs : Nat → PkgAttr) :
    ∀ (l : List Nat) (act : Nat → StateAction) (evs : List CommitEvent),
    (commit_remove_loop o installL attrs l act evs).1 ≠ some HifError.noSpace := by
  intro l
  induction l with
  | nil =>
    intro act evs
    simp [commit_remove_loop]
  | cons p rest ih =>
    intro act evs
    unfold commit_remove_loop
    split_ifs <;> simp [ih]

theorem opt_getD_ne {α : Type} (x : Option α) (d v : α) (h1 : x ≠ some v)
    (h2 : d ≠ v) : x.getD d ≠ v := by
  cases x <;> simp_all

theorem commit_test_tail_no_fsc (o : CommitOracle) (evs : List CommitEvent)
    (h : CommitEvent.checkFreeSpace ∉ evs) :
    CommitEvent.checkFreeSpace ∉ (commit_test_tail o evs).2 := by
  unfold commit_test_tail
  split_ifs <;> simpa using h

theorem commit_real_tail_no_fsc (ctx : CommitCtx) (o : CommitOracle)
    (evs : List CommitEvent) (h : CommitEvent.checkFreeSpace ∉ evs) :
    CommitEvent.checkFreeSpace ∉ (commit_real_tail ctx o evs).2 := by
  unfold commit_real_tail
  split_ifs <;> simp_all [List.mem_append]

theorem not_mem_append_singleton {α : Type} {x y : α} {l : List α}
    (h : x ∉ l) (hxy : x ≠ y) : x ∉ l ++ [y] := by
  simp [List.mem_append, h, hxy]

theorem commit_run_phase_no_fsc (ctx : CommitCtx) (flags : Nat) (o : CommitOracle)
    (evs : List CommitEvent) (h : CommitEvent.checkFreeSpace ∉ evs) :
    CommitEvent.checkFreeSpace ∉ (commit_run_phase ctx flags o evs).2 := by
  have hevs7 : CommitEvent.checkFreeSpace ∉
      (if ctx.checkTransaction then evs ++ [CommitEvent.rpmCheck] else evs) := by
    split_ifs
    · exact not_mem_append_singleton h (by simp)
    · exact h
  unfold commit_run_phase
  by_cases h1 : ctx.checkTransaction ∧ o.testProblemsFound
  · rw [if_pos h1]
    exact hevs7
  · rw [if_neg h1]
    by_cases h2 : flags &&& HIF_TRANSACTION_FLAG_TEST ≠ 0
    · rw [if_pos h2]
      exact commit_test_tail_no_fsc o _ (not_mem_append_singleton hevs7 (by simp))
    · rw [if_neg h2]
      exact commit_real_tail_no_fsc ctx o _ (not_mem_append_singleton hevs7 (by simp))

theorem commit_test_tail_no_nospace (o : CommitOracle) (evs : List CommitEvent) :
    (commit_test_tail o evs).1 ≠ Except.error HifError.noSpace := by
  unfold commit_test_tail
  split_ifs <;> simp

theorem commit_real_tail_no_nospace (ctx : CommitCtx) (o : CommitOracle)
    (evs : List CommitEvent) :
    (commit_real_tail ctx o evs).1 ≠ Except.error HifError.noSpace := by
  unfold commit_real_tail
  split_ifs <;> simp

theorem commit_run_phase_no_nospace (ctx : CommitCtx) (flags : Nat) (o : CommitOracle)
    (evs : List CommitEvent) :
    (commit_run_phase ctx flags o evs).1 ≠ Except.error HifError.noSpace := by
  unfold commit_run_phase
  by_cases h1 : ctx.checkTransaction ∧ o.testProblemsFound
  · rw [if_pos h1]
    simp
  · rw [if_neg h1]
    by_cases h2 : flags &&& HIF_TRANSACTION_FLAG_TEST ≠ 0
    · rw [if_pos h2]
      exact commit_test_tail_no_nospace o _
    · rw [if_neg h2]
      exact commit_real_tail_no_nospace ctx o _

set_option maxHeartbeats 1000000 in
theorem hif_transaction_commit_no_fsc (ctx : CommitCtx) (flags : Nat) (g : CommitGoal)
    (attrs : Nat → PkgAttr) (act : Nat → StateAction) (o : CommitOracle) :
    CommitEvent.checkFreeSpace ∉ (hif_transaction_commit ctx flags g attrs act o).2 := by
  have hInst := commit_install_loop_no_fsc o flags act g.installL
    [CommitEvent.takeLock, CommitEvent.importKeys, CommitEvent.checkUntrusted,
      CommitEvent.setRoot] (by simp)
  have hRem := commit_remove_loop_no_fsc o g.installL attrs g.removeL act
    (commit_install_loop o flags act g.installL
      [CommitEvent.takeLock, CommitEvent.importKeys, CommitEvent.checkUntrusted,
        CommitEvent.setRoot]).2 hInst
  have hRun := commit_run_phase_no_fsc ctx flags o
    ((commit_remove_loop o g.installL attrs g.removeL act
      (commit_install_loop o flags act g.installL
        [CommitEvent.takeLock, CommitEvent.importKeys, CommitEvent.checkUntrusted,
          CommitEvent.setRoot]).2).2.2 ++ [CommitEvent.rpmOrder])
    (not_mem_append_singleton hRem (by simp))
  simp only [hif_transaction_commit]
  split_ifs <;> simp_all [List.mem_append]

set_option maxHeartbeats 1000000 in
theorem hif_transaction_commit_no_nospace (ctx : CommitCtx) (flags : Nat)
    (g : CommitGoal) (attrs : Nat → PkgAttr) (act : Nat → StateAction)
    (o : CommitOracle) :
    (hif_transaction_commit ctx flags g attrs act o).1 ≠ Except.error HifError.noSpace := by
  have hIErr := commit_install_loop_err o flags act g.installL
    [CommitEvent.takeLock, CommitEvent.importKeys, CommitEvent.checkUntrusted,
      CommitEvent.setRoot]
  have hRErr := commit_remove_loop_err o g.installL attrs g.removeL act
    (commit_install_loop o flags act g.installL
      [CommitEvent.takeLock, CommitEvent.importKeys, CommitEvent.checkUntrusted,
        CommitEvent.setRoot]).2
  have hRun := commit_run_phase_no_nospace ctx flags o
    ((commit_remove_loop o g.installL attrs g.removeL act
      (commit_install_loop o flags act g.installL
        [CommitEvent.takeLock, CommitEvent.importKeys, CommitEvent.checkUntrusted,
          CommitEvent.setRoot]).2).2.2 ++ [CommitEvent.rpmOrder])
  simp only [hif_transaction_commit]
  split_ifs <;> simp_all [opt_getD_ne]

/-- C7 counterexample: with zero free bytes and a 100-byte pending
download, the free-space check itself would report `NoSpace` — yet
`commit` succeeds, performs no free-space check, and hands the install
to the rpm runtime. -/
theorem commit_free_space_counterexample :
    ctx7.freeSpace = some 0 ∧
    (goal7.pkgsToDownload.map (fun p => (attrs7 p).size)).sum = 100 ∧
    hif_transaction_check_free_space ctx7 goal7.pkgsToDownload attrs7 =
      some HifError.noSpace ∧
    c7out.1 = .ok () ∧
    CommitEvent.checkFreeSpace ∉ c7out.2 ∧
    CommitEvent.addInstall 1 true false ∈ c7out.2 := by
  refine ⟨by decide, by decide, by decide, rfl, by decide, by decide⟩

/-- C7 amended: the free-space precheck belongs to the download step —
`download` computes the total download size, compares it with the free
bytes at the cache dir and fails `NoSpace` before downloading — while
`commit` performs no free-space check and never raises `NoSpace`. -/
theorem download_free_space_amended :
    (∀ (ctx : CommitCtx) (pkgs : List Nat) (attrs : Nat → PkgAttr) (dlOk : Bool)
        (cd : String) (free : Nat),
      ctx.cacheDir = some cd → ctx.freeSpace = some free →
      free < (pkgs.map (fun p => (attrs p).size)).sum →
      hif_transaction_download ctx pkgs attrs dlOk =
        (some HifError.noSpace, [CommitEvent.checkFreeSpace])) ∧
    (∀ (ctx : CommitCtx) (flags : Nat) (g : CommitGoal) (attrs : Nat → PkgAttr)
        (act : Nat → StateAction) (o : CommitOracle),
      CommitEvent.checkFreeSpace ∉ (hif_transaction_commit ctx flags g attrs act o).2 ∧
      (hif_transaction_commit ctx flags g attrs act o).1 ≠
        Except.error HifError.noSpace) := by
  constructor
  · intro ctx pkgs attrs dlOk cd free h1 h2 h3
    unfold hif_transaction_download hif_transaction_check_free_space
    rw [h1, h2]
    simp [h3]
  · intro ctx flags g attrs act o
    exact ⟨hif_transaction_commit_no_fsc ctx flags g attrs act o,
      hif_transaction_commit_no_nospace ctx flags g attrs act o⟩

/-- C7 witness: the amended theorem at the concrete shortfall fixture. -/
theorem download_free_space_amended_witness :
    hif_transaction_download ctx7 goal7.pkgsToDownload attrs7 true =
      (some HifError.noSpace, [CommitEvent.checkFreeSpace]) ∧
    CommitEvent.checkFreeSpace ∉ c7out.2 := by
  constructor
  · exact download_free_space_amended.1 ctx7 goal7.pkgsToDownload attrs7 true
      "/var/cache/yum" 0 rfl rfl (by decide)
  · exact (download_free_space_amended.2 ctx7 0 goal7 attrs7 act7 oracle7).1

/-! ## Claim theorem for the reason database -/

/-- C10: with the db disabled, every mutating operation succeeds and
leaves the store untouched, while the read path does not consult the
enabled bit at all. -/
theorem hif_db_disabled_frame (db : HifDb) (fs : Fs) (pkg : DbPackage)
    (key value : String) (h : db.enabled = false) :
    hif_db_set_string db fs pkg key value = (true, fs, none) ∧
    hif_db_remove db fs pkg key = (true, fs, none) ∧
    hif_db_remove_all db fs pkg = (true, fs, none) ∧
    (∀ b : Bool, hif_db_get_string { db with enabled := b } fs pkg key =
      hif_db_get_string db fs pkg key) := by
  refine ⟨?_, ?_, ?_, ?_⟩
  · unfold hif_db_set_string
    simp [h]
  · unfold hif_db_remove
    simp [h]
  · unfold hif_db_remove_all
    simp [h]
  · intro b
    rfl

/-- C10 witness: the frame theorem at the concrete disabled db over a
non-empty store. -/
theorem hif_db_disabled_frame_witness :
    hif_db_set_string db0 fs0 pkg0 "reason" "dep" = (true, fs0, none) ∧
    hif_db_remove db0 fs0 pkg0 "reason" = (true, fs0, none) ∧
    hif_db_remove_all db0 fs0 pkg0 = (true, fs0, none) := by
  have h := hif_db_disabled_frame db0 fs0 pkg0 "reason" "dep" rfl
  exact ⟨h.1, h.2.1, h.2.2.1⟩
